import Mathlib

/-!
Shallow embedding of `src/node-zerox/src/models/google.ts` (the Google
provider adapter of zerox) and proofs of its specification's claims.

The adapter builds vendor payloads, calls the vendor SDK once, and reshapes
the response.  External collaborators that the file imports from elsewhere
in the repository (`convertKeysToSnakeCase`, the prompt constants, the
`OperationMode` enumeration) are modelled from the spec where noted.  The
vendor SDK call, the image-to-base64 utility and `JSON.parse` are external
capabilities; following the spec's design note they are passed in as
function parameters so the adapter logic is analysed for every behaviour
of those collaborators.
-/

namespace Zerox

/-- Modelled from the spec: the generic JSON-like key-value structure that
`convertKeysToSnakeCase` recurses over (generation parameters, schemas).
Objects are encoded as an assoc chain `objCons k v rest`; `prim` is any
primitive leaf rendered as a string. -/
inductive JVal where
  | null
  | prim (s : String)
  | objNil
  | objCons (k : String) (v : JVal) (rest : JVal)
  deriving DecidableEq, Repr

/-- A character of a camelCase key, rewritten for snake_case: an uppercase
letter becomes an underscore followed by its lowercase form. -/
def snakeChar (c : Char) : List Char :=
  if c.isUpper then ['_', c.toLower] else [c]

/-- Modelled from the spec: the caller-convention → vendor-convention key
translation on a single key (camelCase → snake_case). -/
def camelToSnake (s : String) : String :=
  ⟨(s.data.map snakeChar).flatten⟩

/-- Modelled from the spec: `convertKeysToSnakeCase` from `../utils`, a
stateless recursive mapping over the generic key-value structure that
rewrites every key with `camelToSnake` and leaves values' leaves alone. -/
def convertKeysToSnakeCase : JVal → JVal
  | .null => .null
  | .prim s => .prim s
  | .objNil => .objNil
  | .objCons k v rest =>
      .objCons (camelToSnake k) (convertKeysToSnakeCase v) (convertKeysToSnakeCase rest)

/-- Modelled from the spec: the `OperationMode` enumeration from `../types`
is the closed set {OCR, EXTRACTION}; the extra constructor stands for an
unregistered runtime value, which the TypeScript enum does not rule out and
which the dispatch in `getCompletion` defends against. -/
inductive OperationMode where
  | ocr
  | extraction
  | unregistered (tag : String)
  deriving DecidableEq, Repr

/-- An inline-data part of the outbound request: base64 payload plus the
declared media type. -/
structure InlineData where
  data : String
  mimeType : String
  deriving DecidableEq, Repr

/-- One element of the ordered parts list sent to the vendor. -/
inductive Part where
  | text (t : String)
  | inlineData (d : InlineData)
  deriving DecidableEq, Repr

/-- One turn of the chat-style request: a role and its parts. -/
structure Content where
  role : String
  parts : List Part
  deriving DecidableEq, Repr

/-- The argument of the vendor's `generateContent`. -/
structure GenRequest where
  contents : List Content
  deriving DecidableEq, Repr

/-- The argument of the vendor's `getGenerativeModel`: a generation
configuration and the model identifier. -/
structure ModelCfg where
  generationConfig : JVal
  model : String
  deriving DecidableEq, Repr

/-- The optional usage metadata of a vendor response; both counters are
themselves optional fields. -/
structure UsageMetadata where
  promptTokenCount : Option Nat
  candidatesTokenCount : Option Nat
  deriving DecidableEq, Repr

/-- The vendor response consumed by the adapter: the generated text and the
optional usage metadata. -/
structure GenResponse where
  text : String
  usageMetadata : Option UsageMetadata
  deriving DecidableEq, Repr

/-- The error taxonomy of the adapter: vendor-call failures are re-raised
with their payload intact, a `JSON.parse` failure on the extraction path is
a syntax error carrying the offending text, and an unregistered mode raises
the `Unsupported operation mode` error. -/
inductive GError where
  | vendor (e : String)
  | parse (text : String)
  | unsupportedMode (tag : String)
  deriving DecidableEq, Repr

/-- Observable side effects of one `getCompletion` call, in order: each
outbound vendor call with its payload, and each `console.error` log. -/
inductive Event where
  | vendorCall (cfg : ModelCfg) (req : GenRequest)
  | logError (e : GError)
  deriving DecidableEq, Repr

/-- The adapter's construction-time state (`GoogleModel`'s fields). -/
structure GoogleModel where
  apiKey : String
  mode : OperationMode
  model : String
  llmParams : Option JVal
  deriving DecidableEq, Repr

/-- The request record handed to `getCompletion`.  The TypeScript union
`CompletionArgs | ExtractionArgs` is modelled as one record carrying every
field; each handler destructures only the fields of its own variant. -/
structure Args where
  image : String
  maintainFormat : Bool
  priorPage : Option String
  schema : JVal
  deriving DecidableEq, Repr

/-- OCR-mode result shape. -/
structure CompletionResponse where
  content : String
  inputTokens : Nat
  outputTokens : Nat
  deriving DecidableEq, Repr

/-- Extraction-mode result shape. -/
structure ExtractionResponse where
  extracted : JVal
  inputTokens : Nat
  outputTokens : Nat
  deriving DecidableEq, Repr

/-- The union result of `getCompletion`. -/
inductive GResult where
  | ocr (r : CompletionResponse)
  | extraction (r : ExtractionResponse)
  deriving DecidableEq, Repr

/-- Modelled from the spec: the constant base OCR instruction
`SYSTEM_PROMPT_BASE` from `../constants`. -/
def SYSTEM_PROMPT_BASE : String :=
  "Convert the following image to markdown."

/-- Modelled from the spec: the fixed head of the consistency-instruction
template `CONSISTENCY_PROMPT` from `../constants`. -/
def consistencyHead : String :=
  "Markdown must maintain consistent formatting with the following page of the document: "

/-- Modelled from the spec: the consistency-instruction template,
parameterized by the prior page text which it embeds. -/
def CONSISTENCY_PROMPT (priorPage : String) : String :=
  consistencyHead ++ priorPage

/-- JavaScript truthiness of the `priorPage && priorPage.length` guard:
true iff the optional string is present and non-empty. -/
def truthyText : Option String → Bool
  | some p => !p.isEmpty
  | none => false

/-- `x || 0` on an optional counter: the count when present, else `0`. -/
def tokenOrZero (o : Option Nat) : Nat := o.getD 0

/-- The vendor SDK's generate-content capability, injected: it either
returns a response or fails with an opaque vendor error value. -/
def Vendor : Type := ModelCfg → GenRequest → Except String GenResponse

/-- The generation configuration of the OCR path:
`convertKeysToSnakeCase(this.llmParams ?? null)` with the model id. -/
def ocrConfig (m : GoogleModel) : ModelCfg :=
  ⟨convertKeysToSnakeCase (m.llmParams.getD .null), m.model⟩

/-- The ordered prompt parts of the OCR path: the base instruction, then —
only when `maintainFormat` holds and the prior page text is truthy — the
consistency instruction, then the inline image. -/
def ocrPromptParts (encode : String → String) (a : Args) : List Part :=
  [Part.text SYSTEM_PROMPT_BASE]
    ++ (if a.maintainFormat && truthyText a.priorPage then
          [Part.text (CONSISTENCY_PROMPT (a.priorPage.getD ""))]
        else [])
    ++ [Part.inlineData ⟨encode a.image, "image/png"⟩]

/-- The single-turn user request of the OCR path. -/
def ocrRequest (encode : String → String) (a : Args) : GenRequest :=
  ⟨[⟨"user", ocrPromptParts encode a⟩]⟩

/-- JavaScript object-spread of the converted parameters into an object
literal: the fields of an object chain precede the literal's own fields
(which therefore win on key collision); spreading `null` or a primitive
contributes no field. -/
def spreadInto : JVal → JVal → JVal
  | .objCons k v rest, tail => .objCons k v (spreadInto rest tail)
  | _, tail => tail

/-- The generation configuration of the extraction path: the snake-cased
parameters spread first, then `responseMimeType: "application/json"` and
`responseSchema: schema`. -/
def extractionConfig (m : GoogleModel) (a : Args) : ModelCfg :=
  ⟨spreadInto (convertKeysToSnakeCase (m.llmParams.getD .null))
      (.objCons "responseMimeType" (.prim "application/json")
        (.objCons "responseSchema" a.schema .objNil)),
    m.model⟩

/-- The fixed extraction instruction (string literal of the source). -/
def EXTRACTION_PROMPT : String :=
  "Extract schema data from the following image"

/-- The ordered prompt parts of the extraction path. -/
def extractionPromptParts (encode : String → String) (a : Args) : List Part :=
  [Part.text EXTRACTION_PROMPT, Part.inlineData ⟨encode a.image, "image/png"⟩]

/-- The single-turn user request of the extraction path. -/
def extractionRequest (encode : String → String) (a : Args) : GenRequest :=
  ⟨[⟨"user", extractionPromptParts encode a⟩]⟩

/-- `handleOCR`: one vendor call; on success the raw text and the token
counts defaulted to 0; on failure the error is logged and re-raised. -/
def handleOCR (encode : String → String) (gen : Vendor) (m : GoogleModel)
    (a : Args) : Except GError CompletionResponse × List Event :=
  let cfg := ocrConfig m
  let req := ocrRequest encode a
  match gen cfg req with
  | .ok resp =>
      (.ok ⟨resp.text,
          tokenOrZero (resp.usageMetadata.bind (fun u => u.promptTokenCount)),
          tokenOrZero (resp.usageMetadata.bind (fun u => u.candidatesTokenCount))⟩,
        [.vendorCall cfg req])
  | .error e =>
      (.error (.vendor e), [.vendorCall cfg req, .logError (.vendor e)])

/-- `handleExtraction`: one vendor call; on success the text is parsed as
JSON (a parse failure is logged and raised, as `JSON.parse` throws inside
the same `try`); on vendor failure the error is logged and re-raised. -/
def handleExtraction (encode : String → String)
    (jsonParse : String → Option JVal) (gen : Vendor) (m : GoogleModel)
    (a : Args) : Except GError ExtractionResponse × List Event :=
  let cfg := extractionConfig m a
  let req := extractionRequest encode a
  match gen cfg req with
  | .ok resp =>
      match jsonParse resp.text with
      | some v =>
          (.ok ⟨v,
              tokenOrZero (resp.usageMetadata.bind (fun u => u.promptTokenCount)),
              tokenOrZero (resp.usageMetadata.bind (fun u => u.candidatesTokenCount))⟩,
            [.vendorCall cfg req])
      | none =>
          (.error (.parse resp.text),
            [.vendorCall cfg req, .logError (.parse resp.text)])
  | .error e =>
      (.error (.vendor e), [.vendorCall cfg req, .logError (.vendor e)])

/-- `getCompletion`: dispatch on the adapter's fixed mode; an unregistered
mode raises `Unsupported operation mode` before any vendor call. -/
def getCompletion (encode : String → String)
    (jsonParse : String → Option JVal) (gen : Vendor) (m : GoogleModel)
    (a : Args) : Except GError GResult × List Event :=
  match m.mode with
  | .extraction =>
      let r := handleExtraction encode jsonParse gen m a
      (r.fst.map GResult.extraction, r.snd)
  | .ocr =>
      let r := handleOCR encode gen m a
      (r.fst.map GResult.ocr, r.snd)
  | .unregistered t => (.error (.unsupportedMode t), [])

/-- A string is in the vendor's snake_case convention as far as casing is
concerned: it has no uppercase character. -/
def noUpper (s : String) : Bool :=
  s.data.all (fun c => !c.isUpper)

/-- Every key of the key-value structure, at every depth, has no uppercase
character. -/
def keysNoUpper : JVal → Bool
  | .null => true
  | .prim _ => true
  | .objNil => true
  | .objCons k v rest => noUpper k && keysNoUpper v && keysNoUpper rest

/-- Lookup of a key in an object chain with JavaScript literal semantics:
the last occurrence of the key wins. -/
def jlookupLast : JVal → String → Option JVal
  | .objCons k v rest, key =>
      match jlookupLast rest key with
      | some r => some r
      | none => if k = key then some v else none
  | _, _ => none

/-! Helper lemmas -/

/-- Lowercasing an uppercase basic-latin letter leaves the uppercase
range. -/
theorem toLower_not_upper (c : Char) (h : c.isUpper = true) :
    (c.toLower).isUpper = false := by
  simp only [Char.isUpper, Bool.and_eq_true, decide_eq_true_eq] at h
  have h1n : 65 ≤ c.toNat := UInt32.le_toNat_of_le (by decide) h.1
  have h2n : c.toNat ≤ 90 := UInt32.toNat_le_of_le (by decide) h.2
  simp only [Char.toLower]
  rw [if_pos ⟨h1n, h2n⟩]
  have hv : (c.toNat + 32).isValidChar := Or.inl (by omega)
  rw [Char.ofNat, dif_pos hv]
  have hval : (Char.ofNatAux (c.toNat + 32) hv).val.toNat = c.toNat + 32 := rfl
  simp only [Char.isUpper, Bool.and_eq_false_iff, decide_eq_false_iff_not]
  right
  intro hle
  have h3 : (Char.ofNatAux (c.toNat + 32) hv).val.toNat ≤ 90 :=
    UInt32.toNat_le_of_le (by decide) hle
  rw [hval] at h3
  omega

/-- Every character that `snakeChar` emits is non-uppercase. -/
theorem snakeChar_not_upper (c d : Char) (hd : d ∈ snakeChar c) :
    d.isUpper = false := by
  unfold snakeChar at hd
  by_cases hc : c.isUpper = true
  · rw [if_pos hc] at hd
    simp only [List.mem_cons, List.not_mem_nil, or_false] at hd
    rcases hd with rfl | rfl
    · decide
    · exact toLower_not_upper c hc
  · rw [if_neg (by simp [hc])] at hd
    simp only [List.mem_cons, List.not_mem_nil, or_false] at hd
    subst hd
    exact Bool.eq_false_iff.mpr hc

/-- The key translation produces only non-uppercase characters. -/
theorem noUpper_camelToSnake (s : String) : noUpper (camelToSnake s) = true := by
  unfold noUpper camelToSnake
  rw [List.all_eq_true]
  intro d hd
  rw [List.mem_flatten] at hd
  obtain ⟨l, hl, hdl⟩ := hd
  rw [List.mem_map] at hl
  obtain ⟨c, _, rfl⟩ := hl
  simp [snakeChar_not_upper c d hdl]

/-- `convertKeysToSnakeCase` leaves every key, at every depth, in the
vendor's casing convention. -/
theorem keysNoUpper_convert (v : JVal) :
    keysNoUpper (convertKeysToSnakeCase v) = true := by
  induction v with
  | null => rfl
  | prim s => rfl
  | objNil => rfl
  | objCons k v rest ihv ihrest =>
      simp [convertKeysToSnakeCase, keysNoUpper, noUpper_camelToSnake, ihv, ihrest]

/-- A key found in the literal tail of a spread is still found, with the
same value, after the spread (later fields win). -/
theorem jlookupLast_spreadInto (x t : JVal) (key : String) (v : JVal)
    (h : jlookupLast t key = some v) :
    jlookupLast (spreadInto x t) key = some v := by
  induction x with
  | null => exact h
  | prim s => exact h
  | objNil => exact h
  | objCons k vx rest ihv ihrest =>
      simp only [spreadInto, jlookupLast, ihrest]

/-- A non-empty string is not `isEmpty`. -/
theorem isEmpty_false_of_ne (p : String) (h : p ≠ "") : p.isEmpty = false := by
  rw [Bool.eq_false_iff]
  intro hh
  exact h ((String.isEmpty_iff p).mp hh)

/-- The base instruction is never a consistency instruction: the
consistency template is strictly longer. -/
theorem base_ne_consistency (q : String) :
    SYSTEM_PROMPT_BASE ≠ CONSISTENCY_PROMPT q := by
  intro h
  have hlen := congrArg String.length h
  rw [CONSISTENCY_PROMPT, String.length_append] at hlen
  have h1 : SYSTEM_PROMPT_BASE.length < consistencyHead.length := by decide
  omega

/-- In OCR mode every vendor call of the trace carries the OCR
configuration and the OCR request, and one such call happens. -/
theorem trace_ocr_vendorCall (encode : String → String)
    (jsonParse : String → Option JVal) (gen : Vendor) (m : GoogleModel)
    (a : Args) (hm : m.mode = .ocr) :
    (∀ cfg req,
        Event.vendorCall cfg req ∈ (getCompletion encode jsonParse gen m a).snd →
          cfg = ocrConfig m ∧ req = ocrRequest encode a)
      ∧ Event.vendorCall (ocrConfig m) (ocrRequest encode a)
          ∈ (getCompletion encode jsonParse gen m a).snd := by
  cases hg : gen (ocrConfig m) (ocrRequest encode a) with
  | ok resp =>
      constructor
      · intro cfg req hmem
        simp [getCompletion, hm, handleOCR, hg] at hmem
        exact hmem
      · simp [getCompletion, hm, handleOCR, hg]
  | error e =>
      constructor
      · intro cfg req hmem
        simp [getCompletion, hm, handleOCR, hg] at hmem
        exact hmem
      · simp [getCompletion, hm, handleOCR, hg]

/-- In extraction mode every vendor call of the trace carries the
extraction configuration and the extraction request, and one such call
happens. -/
theorem trace_extraction_vendorCall (encode : String → String)
    (jsonParse : String → Option JVal) (gen : Vendor) (m : GoogleModel)
    (a : Args) (hm : m.mode = .extraction) :
    (∀ cfg req,
        Event.vendorCall cfg req ∈ (getCompletion encode jsonParse gen m a).snd →
          cfg = extractionConfig m a ∧ req = extractionRequest encode a)
      ∧ Event.vendorCall (extractionConfig m a) (extractionRequest encode a)
          ∈ (getCompletion encode jsonParse gen m a).snd := by
  cases hg : gen (extractionConfig m a) (extractionRequest encode a) with
  | ok resp =>
      cases hp : jsonParse resp.text with
      | some v =>
          constructor
          · intro cfg req hmem
            simp [getCompletion, hm, handleExtraction, hg, hp] at hmem
            exact hmem
          · simp [getCompletion, hm, handleExtraction, hg, hp]
      | none =>
          constructor
          · intro cfg req hmem
            simp [getCompletion, hm, handleExtraction, hg, hp] at hmem
            exact hmem
          · simp [getCompletion, hm, handleExtraction, hg, hp]
  | error e =>
      constructor
      · intro cfg req hmem
        simp [getCompletion, hm, handleExtraction, hg] at hmem
        exact hmem
      · simp [getCompletion, hm, handleExtraction, hg]

/-- C1: In EXTRACTION mode, when the vendor response's text is not
parseable as JSON, `getCompletion` fails with the parse error carrying that
text — an error distinct from every vendor-call error — and returns no
result at all, in particular none whose `extracted` field is null. -/
theorem extraction_parse_failure_raises_distinct_error
    (encode : String → String) (jsonParse : String → Option JVal)
    (gen : Vendor) (m : GoogleModel) (a : Args) (resp : GenResponse)
    (hm : m.mode = .extraction)
    (hg : gen (extractionConfig m a) (extractionRequest encode a) = .ok resp)
    (hp : jsonParse resp.text = none) :
    (getCompletion encode jsonParse gen m a).fst
        = .error (.parse resp.text)
      ∧ (∀ e, GError.parse resp.text ≠ GError.vendor e)
      ∧ (∀ r, (getCompletion encode jsonParse gen m a).fst ≠ .ok r) := by
  have hfst : (getCompletion encode jsonParse gen m a).fst
      = .error (.parse resp.text) := by
    simp [getCompletion, hm, handleExtraction, hg, hp, Except.map]
  refine ⟨hfst, ?_, ?_⟩
  · intro e h
    cases h
  · intro r h
    rw [hfst] at h
    cases h

/-- Witness for C1 at a concrete adapter, request, vendor response and
parse function. -/
theorem extraction_parse_failure_witness :
    (getCompletion (fun _ => "SU1H") (fun _ => none)
        (fun _ _ => .ok ⟨"not json", none⟩)
        ⟨"key", .extraction, "gemini-2.0-flash", none⟩
        ⟨"page.png", false, none, .objNil⟩).fst
      = .error (.parse "not json") :=
  (extraction_parse_failure_raises_distinct_error
    (fun _ => "SU1H") (fun _ => none) (fun _ _ => .ok ⟨"not json", none⟩)
    ⟨"key", .extraction, "gemini-2.0-flash", none⟩
    ⟨"page.png", false, none, .objNil⟩ ⟨"not json", none⟩
    rfl rfl rfl).1

/-- C3: an adapter whose mode is unregistered fails with the
unsupported-mode error and an empty event trace, so before any vendor call
is attempted; for the two registered modes that error never occurs. -/
theorem unsupported_mode_raises_before_call
    (encode : String → String) (jsonParse : String → Option JVal)
    (gen : Vendor) (m : GoogleModel) (a : Args) :
    (∀ t, m.mode = .unregistered t →
        getCompletion encode jsonParse gen m a
          = (.error (.unsupportedMode t), []))
      ∧ ((m.mode = .ocr ∨ m.mode = .extraction) →
        ∀ t, (getCompletion encode jsonParse gen m a).fst
          ≠ .error (.unsupportedMode t)) := by
  constructor
  · intro t ht
    simp [getCompletion, ht]
  · intro hreg t
    rcases hreg with h | h
    · cases hg : gen (ocrConfig m) (ocrRequest encode a) with
      | ok resp => simp [getCompletion, h, handleOCR, hg, Except.map]
      | error e => simp [getCompletion, h, handleOCR, hg, Except.map]
    · cases hg : gen (extractionConfig m a) (extractionRequest encode a) with
      | ok resp =>
          cases hp : jsonParse resp.text with
          | some v => simp [getCompletion, h, handleExtraction, hg, hp, Except.map]
          | none => simp [getCompletion, h, handleExtraction, hg, hp, Except.map]
      | error e => simp [getCompletion, h, handleExtraction, hg, Except.map]

/-- Witness for C3 at a concrete adapter built with an unregistered mode. -/
theorem unsupported_mode_witness :
    getCompletion (fun _ => "SU1H") (fun _ => none)
        (fun _ _ => .ok ⟨"text", none⟩)
        ⟨"key", .unregistered "BOGUS", "gemini-2.0-flash", none⟩
        ⟨"page.png", false, none, .objNil⟩
      = (.error (.unsupportedMode "BOGUS"), []) :=
  (unsupported_mode_raises_before_call (fun _ => "SU1H") (fun _ => none)
    (fun _ _ => .ok ⟨"text", none⟩)
    ⟨"key", .unregistered "BOGUS", "gemini-2.0-flash", none⟩
    ⟨"page.png", false, none, .objNil⟩).1 "BOGUS" rfl

/-- C2: in OCR mode with `maintainFormat` set and a non-empty prior page,
every request sent to the vendor carries exactly the parts base
instruction, consistency instruction embedding the prior page text, inline
image — in that order; such a request is sent; the consistency text embeds
the prior page; and the base instruction is never itself a consistency
instruction. -/
theorem ocr_consistency_instruction_once
    (encode : String → String) (jsonParse : String → Option JVal)
    (gen : Vendor) (m : GoogleModel) (a : Args) (p : String)
    (hm : m.mode = .ocr) (hmf : a.maintainFormat = true)
    (hp : a.priorPage = some p) (hne : p ≠ "") :
    (∀ cfg req,
        Event.vendorCall cfg req ∈ (getCompletion encode jsonParse gen m a).snd →
          req = ⟨[⟨"user",
            [Part.text SYSTEM_PROMPT_BASE,
             Part.text (CONSISTENCY_PROMPT p),
             Part.inlineData ⟨encode a.image, "image/png"⟩]⟩]⟩)
      ∧ (∃ cfg req,
          Event.vendorCall cfg req ∈ (getCompletion encode jsonParse gen m a).snd)
      ∧ (∃ pre, CONSISTENCY_PROMPT p = pre ++ p)
      ∧ (∀ q, SYSTEM_PROMPT_BASE ≠ CONSISTENCY_PROMPT q) := by
  have hparts : ocrPromptParts encode a
      = [Part.text SYSTEM_PROMPT_BASE, Part.text (CONSISTENCY_PROMPT p),
         Part.inlineData ⟨encode a.image, "image/png"⟩] := by
    simp [ocrPromptParts, hmf, hp, truthyText, isEmpty_false_of_ne p hne]
  have hreq : ocrRequest encode a
      = ⟨[⟨"user",
          [Part.text SYSTEM_PROMPT_BASE, Part.text (CONSISTENCY_PROMPT p),
           Part.inlineData ⟨encode a.image, "image/png"⟩]⟩]⟩ := by
    rw [ocrRequest, hparts]
  obtain ⟨hall, hone⟩ :=
    trace_ocr_vendorCall encode jsonParse gen m a hm
  refine ⟨?_, ⟨_, _, hone⟩, ⟨consistencyHead, rfl⟩, base_ne_consistency⟩
  intro cfg req hmem
  rw [(hall cfg req hmem).2, hreq]

/-- Witness for C2 at a concrete adapter and request with a prior page. -/
theorem ocr_consistency_instruction_witness :
    ∃ pre, CONSISTENCY_PROMPT "# Page 1" = pre ++ "# Page 1" :=
  (ocr_consistency_instruction_once (fun _ => "SU1H") (fun _ => none)
    (fun _ _ => .ok ⟨"text", none⟩)
    ⟨"key", .ocr, "gemini-2.0-flash", none⟩
    ⟨"page.png", true, some "# Page 1", .objNil⟩ "# Page 1"
    rfl rfl rfl (by decide)).2.2.1

/-- C6: in OCR mode with `maintainFormat` unset, every request sent to the
vendor carries exactly the base instruction and the inline image, and no
consistency instruction for any prior page text appears among its parts,
whatever `priorPage` was. -/
theorem ocr_no_consistency_without_maintain
    (encode : String → String) (jsonParse : String → Option JVal)
    (gen : Vendor) (m : GoogleModel) (a : Args)
    (hm : m.mode = .ocr) (hmf : a.maintainFormat = false) :
    ∀ cfg req,
      Event.vendorCall cfg req ∈ (getCompletion encode jsonParse gen m a).snd →
        req = ⟨[⟨"user",
          [Part.text SYSTEM_PROMPT_BASE,
           Part.inlineData ⟨encode a.image, "image/png"⟩]⟩]⟩
        ∧ ∀ c ∈ req.contents, ∀ q, Part.text (CONSISTENCY_PROMPT q) ∉ c.parts := by
  have hparts : ocrPromptParts encode a
      = [Part.text SYSTEM_PROMPT_BASE,
         Part.inlineData ⟨encode a.image, "image/png"⟩] := by
    simp [ocrPromptParts, hmf]
  have hreq : ocrRequest encode a
      = ⟨[⟨"user",
          [Part.text SYSTEM_PROMPT_BASE,
           Part.inlineData ⟨encode a.image, "image/png"⟩]⟩]⟩ := by
    rw [ocrRequest, hparts]
  obtain ⟨hall, _⟩ := trace_ocr_vendorCall encode jsonParse gen m a hm
  intro cfg req hmem
  have hr : req = ⟨[⟨"user",
      [Part.text SYSTEM_PROMPT_BASE,
       Part.inlineData ⟨encode a.image, "image/png"⟩]⟩]⟩ := by
    rw [(hall cfg req hmem).2, hreq]
  refine ⟨hr, ?_⟩
  rw [hr]
  intro c hc q
  simp only [List.mem_singleton] at hc
  subst hc
  simp only [List.mem_cons, List.not_mem_nil, or_false]
  rintro (hq | hq)
  · injection hq with h
    exact base_ne_consistency q h.symm
  · cases hq

/-- Witness for C6 at a concrete adapter and request that carries a prior
page while `maintainFormat` is false. -/
theorem ocr_no_consistency_witness :
    ocrRequest (fun _ => "SU1H") ⟨"page.png", false, some "# Page 1", .objNil⟩
      = ⟨[⟨"user",
          [Part.text SYSTEM_PROMPT_BASE,
           Part.inlineData ⟨"SU1H", "image/png"⟩]⟩]⟩ :=
  (ocr_no_consistency_without_maintain (fun _ => "SU1H") (fun _ => none)
    (fun _ _ => .ok ⟨"text", none⟩)
    ⟨"key", .ocr, "gemini-2.0-flash", none⟩
    ⟨"page.png", false, some "# Page 1", .objNil⟩ rfl rfl
    (ocrConfig ⟨"key", .ocr, "gemini-2.0-flash", none⟩)
    (ocrRequest (fun _ => "SU1H") ⟨"page.png", false, some "# Page 1", .objNil⟩)
    (by simp [getCompletion, handleOCR])).1

/-- C4: in extraction mode the configuration sent to the vendor is always
the extraction configuration, one call is made, and that configuration
maps `responseMimeType` to `application/json` and `responseSchema` to the
caller's schema unchanged (later fields of the object literal win). -/
theorem extraction_config_structured_output
    (encode : String → String) (jsonParse : String → Option JVal)
    (gen : Vendor) (m : GoogleModel) (a : Args)
    (hm : m.mode = .extraction) :
    (∀ cfg req,
        Event.vendorCall cfg req ∈ (getCompletion encode jsonParse gen m a).snd →
          cfg = extractionConfig m a)
      ∧ (∃ cfg req,
          Event.vendorCall cfg req ∈ (getCompletion encode jsonParse gen m a).snd)
      ∧ jlookupLast (extractionConfig m a).generationConfig "responseMimeType"
          = some (.prim "application/json")
      ∧ jlookupLast (extractionConfig m a).generationConfig "responseSchema"
          = some a.schema := by
  obtain ⟨hall, hone⟩ :=
    trace_extraction_vendorCall encode jsonParse gen m a hm
  refine ⟨fun cfg req hmem => (hall cfg req hmem).1, ⟨_, _, hone⟩, ?_, ?_⟩
  · exact jlookupLast_spreadInto _ _ _ _ rfl
  · exact jlookupLast_spreadInto _ _ _ _ rfl

/-- Witness for C4 at a concrete adapter with generation parameters. -/
theorem extraction_config_structured_witness :
    jlookupLast
        (extractionConfig
          ⟨"key", .extraction, "gemini-2.0-flash",
            some (.objCons "maxOutputTokens" (.prim "1024") .objNil)⟩
          ⟨"page.png", false, none, .objCons "type" (.prim "object") .objNil⟩).generationConfig
        "responseSchema"
      = some (.objCons "type" (.prim "object") .objNil) :=
  (extraction_config_structured_output (fun _ => "SU1H") (fun _ => none)
    (fun _ _ => .ok ⟨"{}", none⟩)
    ⟨"key", .extraction, "gemini-2.0-flash",
      some (.objCons "maxOutputTokens" (.prim "1024") .objNil)⟩
    ⟨"page.png", false, none, .objCons "type" (.prim "object") .objNil⟩
    rfl).2.2.2

/-- C5: when the vendor response carries no usage metadata, both token
counts of the returned result are 0 and the call still succeeds, in either
mode (for extraction, provided the text parses). -/
theorem missing_usage_metadata_zero_tokens
    (encode : String → String) (jsonParse : String → Option JVal)
    (gen : Vendor) (m : GoogleModel) (a : Args) (resp : GenResponse)
    (v : JVal) (hu : resp.usageMetadata = none) :
    (m.mode = .ocr → gen (ocrConfig m) (ocrRequest encode a) = .ok resp →
      (getCompletion encode jsonParse gen m a).fst
        = .ok (.ocr ⟨resp.text, 0, 0⟩))
      ∧ (m.mode = .extraction →
        gen (extractionConfig m a) (extractionRequest encode a) = .ok resp →
        jsonParse resp.text = some v →
        (getCompletion encode jsonParse gen m a).fst
          = .ok (.extraction ⟨v, 0, 0⟩)) := by
  constructor
  · intro hm hg
    simp [getCompletion, hm, handleOCR, hg, hu, tokenOrZero, Except.map]
  · intro hm hg hp
    simp [getCompletion, hm, handleExtraction, hg, hp, hu, tokenOrZero, Except.map]

/-- Witness for C5 at a concrete OCR adapter whose vendor response has no
usage metadata. -/
theorem missing_usage_metadata_witness :
    (getCompletion (fun _ => "SU1H") (fun _ => none)
        (fun _ _ => .ok ⟨"hello", none⟩)
        ⟨"key", .ocr, "gemini-2.0-flash", none⟩
        ⟨"page.png", false, none, .objNil⟩).fst
      = .ok (.ocr ⟨"hello", 0, 0⟩) :=
  (missing_usage_metadata_zero_tokens (fun _ => "SU1H") (fun _ => none)
    (fun _ _ => .ok ⟨"hello", none⟩)
    ⟨"key", .ocr, "gemini-2.0-flash", none⟩
    ⟨"page.png", false, none, .objNil⟩ ⟨"hello", none⟩ .null rfl).1 rfl rfl

/-- C7: in either mode, a vendor-call failure makes `getCompletion` fail
with exactly that error value, and the whole event trace is one vendor call
followed by one log of that same error — no retry, no partial result. -/
theorem vendor_error_logged_once_and_rethrown
    (encode : String → String) (jsonParse : String → Option JVal)
    (gen : Vendor) (m : GoogleModel) (a : Args) (e : String) :
    (m.mode = .ocr → gen (ocrConfig m) (ocrRequest encode a) = .error e →
      getCompletion encode jsonParse gen m a
        = (.error (.vendor e),
            [.vendorCall (ocrConfig m) (ocrRequest encode a),
             .logError (.vendor e)]))
      ∧ (m.mode = .extraction →
        gen (extractionConfig m a) (extractionRequest encode a) = .error e →
        getCompletion encode jsonParse gen m a
          = (.error (.vendor e),
              [.vendorCall (extractionConfig m a) (extractionRequest encode a),
               .logError (.vendor e)])) := by
  constructor
  · intro hm hg
    simp [getCompletion, hm, handleOCR, hg, Except.map]
  · intro hm hg
    simp [getCompletion, hm, handleExtraction, hg, Except.map]

/-- Witness for C7 at a concrete OCR adapter whose vendor call fails. -/
theorem vendor_error_logged_witness :
    getCompletion (fun _ => "SU1H") (fun _ => none)
        (fun _ _ => .error "quota exceeded")
        ⟨"key", .ocr, "gemini-2.0-flash", none⟩
        ⟨"page.png", false, none, .objNil⟩
      = (.error (.vendor "quota exceeded"),
          [.vendorCall
            (ocrConfig ⟨"key", .ocr, "gemini-2.0-flash", none⟩)
            (ocrRequest (fun _ => "SU1H") ⟨"page.png", false, none, .objNil⟩),
           .logError (.vendor "quota exceeded")]) :=
  (vendor_error_logged_once_and_rethrown (fun _ => "SU1H") (fun _ => none)
    (fun _ _ => .error "quota exceeded")
    ⟨"key", .ocr, "gemini-2.0-flash", none⟩
    ⟨"page.png", false, none, .objNil⟩ "quota exceeded").1 rfl rfl

/-- C8: in both modes the generation configuration holds exactly
`convertKeysToSnakeCase` of the caller's parameters (spread first on the
extraction path), and that translation leaves no uppercase character in
any key, at any depth — e.g. `maxOutputTokens` becomes
`max_output_tokens`. -/
theorem llmParams_keys_snake_cased (m : GoogleModel) (a : Args) :
    (ocrConfig m).generationConfig
        = convertKeysToSnakeCase (m.llmParams.getD .null)
      ∧ (extractionConfig m a).generationConfig
        = spreadInto (convertKeysToSnakeCase (m.llmParams.getD .null))
            (.objCons "responseMimeType" (.prim "application/json")
              (.objCons "responseSchema" a.schema .objNil))
      ∧ keysNoUpper (convertKeysToSnakeCase (m.llmParams.getD .null)) = true
      ∧ camelToSnake "maxOutputTokens" = "max_output_tokens" :=
  ⟨rfl, rfl, keysNoUpper_convert _, rfl⟩

/-- C9: in both modes, every outbound request is a single-turn user
message whose parts are text segments followed by exactly one inline
base64 image in last position, declared `image/png` whatever the input
image was. -/
theorem request_single_turn_one_png_image
    (encode : String → String) (jsonParse : String → Option JVal)
    (gen : Vendor) (m : GoogleModel) (a : Args) :
    ∀ cfg req,
      Event.vendorCall cfg req ∈ (getCompletion encode jsonParse gen m a).snd →
        ∃ ts : List String, req.contents
          = [⟨"user", ts.map Part.text
              ++ [Part.inlineData ⟨encode a.image, "image/png"⟩]⟩] := by
  intro cfg req hmem
  cases hmode : m.mode with
  | ocr =>
      obtain ⟨hall, _⟩ := trace_ocr_vendorCall encode jsonParse gen m a hmode
      rw [(hall cfg req hmem).2]
      cases hcond : a.maintainFormat && truthyText a.priorPage with
      | true =>
          exact ⟨[SYSTEM_PROMPT_BASE, CONSISTENCY_PROMPT (a.priorPage.getD "")],
            by simp [ocrRequest, ocrPromptParts, hcond]⟩
      | false =>
          exact ⟨[SYSTEM_PROMPT_BASE],
            by simp [ocrRequest, ocrPromptParts, hcond]⟩
  | extraction =>
      obtain ⟨hall, _⟩ :=
        trace_extraction_vendorCall encode jsonParse gen m a hmode
      rw [(hall cfg req hmem).2]
      exact ⟨[EXTRACTION_PROMPT],
        by simp [extractionRequest, extractionPromptParts]⟩
  | unregistered t =>
      exfalso
      simp [getCompletion, hmode] at hmem

/-- Witness for C9 at a concrete extraction adapter and request. -/
theorem request_single_turn_witness :
    ∃ ts : List String, (extractionRequest (fun _ => "SU1H")
          ⟨"page.png", false, none, .objNil⟩).contents
        = [⟨"user", ts.map Part.text
            ++ [Part.inlineData ⟨"SU1H", "image/png"⟩]⟩] :=
  request_single_turn_one_png_image (fun _ => "SU1H") (fun _ => some .null)
    (fun _ _ => .ok ⟨"null", none⟩)
    ⟨"key", .extraction, "gemini-2.0-flash", none⟩
    ⟨"page.png", false, none, .objNil⟩
    (extractionConfig ⟨"key", .extraction, "gemini-2.0-flash", none⟩
      ⟨"page.png", false, none, .objNil⟩)
    (extractionRequest (fun _ => "SU1H") ⟨"page.png", false, none, .objNil⟩)
    (by simp [getCompletion, handleExtraction])

/-- C10: in extraction mode the whole behaviour of `getCompletion` — the
result and the event trace, vendor payload included — depends only on the
request's `image` and `schema` fields; `maintainFormat` and `priorPage`
have no influence. -/
theorem extraction_ignores_ocr_fields
    (encode : String → String) (jsonParse : String → Option JVal)
    (gen : Vendor) (m : GoogleModel) (a1 a2 : Args)
    (hm : m.mode = .extraction) (hi : a1.image = a2.image)
    (hs : a1.schema = a2.schema) :
    getCompletion encode jsonParse gen m a1
      = getCompletion encode jsonParse gen m a2 := by
  obtain ⟨i1, mf1, pp1, s1⟩ := a1
  obtain ⟨i2, mf2, pp2, s2⟩ := a2
  dsimp only at hi hs
  subst hi
  subst hs
  simp [getCompletion, hm, handleExtraction, extractionConfig,
    extractionRequest, extractionPromptParts]

/-- Witness for C10: two concrete extraction requests agreeing on image
and schema but differing on `maintainFormat` and `priorPage` behave
identically. -/
theorem extraction_ignores_ocr_fields_witness :
    getCompletion (fun _ => "SU1H") (fun _ => some .null)
        (fun _ _ => .ok ⟨"null", none⟩)
        ⟨"key", .extraction, "gemini-2.0-flash", none⟩
        ⟨"page.png", true, some "# Page 1", .objNil⟩
      = getCompletion (fun _ => "SU1H") (fun _ => some .null)
        (fun _ _ => .ok ⟨"null", none⟩)
        ⟨"key", .extraction, "gemini-2.0-flash", none⟩
        ⟨"page.png", false, none, .objNil⟩ :=
  extraction_ignores_ocr_fields (fun _ => "SU1H") (fun _ => some .null)
    (fun _ _ => .ok ⟨"null", none⟩)
    ⟨"key", .extraction, "gemini-2.0-flash", none⟩
    ⟨"page.png", true, some "# Page 1", .objNil⟩
    ⟨"page.png", false, none, .objNil⟩ rfl rfl rfl

end Zerox
